import Mathlib

/-!
# The alert model of `model/alert.go`

A shallow embedding of the `Alert` value type, its derived identity
(`Name`, `Fingerprint`), its derived activity state (`Resolved`, `Status`),
its debug rendering (`String`) and the comparator of the sortable list
`Alerts` (`Less`).

Conventions of the embedding:

* `time.Now()` is an explicit argument `now` of every function that reads
  the clock.
* A Go run-time panic (index out of range, slice bounds out of range) is the
  result `none`.
* The elements of `Alerts` are the alerts the Go pointers refer to.
* Timestamps are compared as wall-clock instants, the way `time.Time`
  compares two values that carry no monotonic clock reading.
-/

namespace Model

/-! ## Time, as the standard library presents it to this file -/

/-- An instant of `time.Time` as its methods `IsZero`, `Before`, `After` and
`Equal` read it: whole seconds since January 1, year 1, 00:00:00 UTC, and the
nanoseconds within that second. -/
structure Time where
  sec : Int
  nsec : Nat
deriving DecidableEq

/-- The zero value of `time.Time`: January 1, year 1, 00:00:00 UTC. -/
def Time.zero : Time := ⟨0, 0⟩

/-- Go `t.IsZero()`: `t.sec() == 0 && t.nsec() == 0`. -/
def Time.IsZero (t : Time) : Bool :=
  decide (t.sec = 0) && decide (t.nsec = 0)

/-- Go `t.After(u)`: `ts > us || ts == us && t.nsec() > u.nsec()`. -/
def Time.After (t u : Time) : Bool :=
  decide (t.sec > u.sec) || (decide (t.sec = u.sec) && decide (t.nsec > u.nsec))

/-- Go `t.Before(u)`: `ts < us || ts == us && t.nsec() < u.nsec()`. -/
def Time.Before (t u : Time) : Bool :=
  decide (t.sec < u.sec) || (decide (t.sec = u.sec) && decide (t.nsec < u.nsec))

/-- Go `t.Equal(u)`: `t.sec() == u.sec() && t.nsec() == u.nsec()`. -/
def Time.Equal (t u : Time) : Bool :=
  decide (t.sec = u.sec) && decide (t.nsec = u.nsec)

/-- The instant a whole number of seconds after `t` (what `t.Add` returns for
a duration of whole seconds): used to write down test scenarios such as
`T0 + 1h`. -/
def Time.addSeconds (t : Time) (s : Int) : Time := ⟨t.sec + s, t.nsec⟩

/-! ## Labels and fingerprints -/

/-- Modelled from the spec: the type `LabelName` is declared outside
`alert.go`; a label name is a string. -/
abbrev LabelName := String

/-- Modelled from the spec: the type `LabelValue` is declared outside
`alert.go`; a label value is a string. -/
abbrev LabelValue := String

/-- Modelled from the spec: the type `LabelSet` is declared outside
`alert.go`; it is a mapping from label name to label value. A name that is
absent maps to `none`; the nil map and the empty map are both
`fun _ => none`. -/
abbrev LabelSet := LabelName → Option LabelValue

/-- The label set without any label (a nil or empty Go map). -/
def LabelSet.empty : LabelSet := fun _ => none

/-- Go `ls[name]` on a map of strings: the stored value, or the zero value
`""` of the value type when the key is absent. -/
def LabelSet.get (ls : LabelSet) (name : LabelName) : LabelValue :=
  match ls name with
  | some v => v
  | none => ""

/-- Modelled from the spec: the constant `AlertNameLabel` is declared outside
`alert.go`; it is the reserved label name `alertname`. -/
def AlertNameLabel : LabelName := "alertname"

/-- Modelled from the spec: the type `Fingerprint` is declared outside
`alert.go`; it is a fixed-width (unsigned 64-bit), totally ordered scalar. -/
abbrev Fingerprint := Nat

/-- Modelled from the spec: `Fingerprint.String` is declared outside
`alert.go`; the canonical textual form of a fingerprint is its hexadecimal
numeral in lower case, padded with zeros on the left to 16 digits. -/
def Fingerprint.String (f : Fingerprint) : String :=
  String.mk (List.leftpad 16 '0' (Nat.toDigits 16 f))

/-! ## Alert -/

/-- AlertStatus is a string type with the two constants below. -/
abbrev AlertStatus := String

/-- The constant `AlertFiring`. -/
def AlertFiring : AlertStatus := "firing"

/-- The constant `AlertResolved`. -/
def AlertResolved : AlertStatus := "resolved"

/-- Alert is a generic representation of an alert: its labels, its
annotations and the known time range, both ends optional (zero when unset). -/
structure Alert where
  Labels : LabelSet
  Annotations : LabelSet
  StartsAt : Time
  EndsAt : Time

/-- Name returns the name of the alert: `string(a.Labels[AlertNameLabel])`. -/
def Alert.Name (a : Alert) : String :=
  a.Labels.get AlertNameLabel

/-- Fingerprint returns `a.Labels.Fingerprint()`. The hash of a label set is
defined outside `alert.go` and is the argument `fp`. -/
def Alert.Fingerprint (fp : LabelSet → Fingerprint) (a : Alert) : Fingerprint :=
  fp a.Labels

/-- Resolved: `false` when `EndsAt` is the zero time, otherwise
`!a.EndsAt.After(time.Now())`. -/
def Alert.Resolved (a : Alert) (now : Time) : Bool :=
  if a.EndsAt.IsZero then
    false
  else
    !a.EndsAt.After now

/-- Status returns `AlertResolved` when the alert is resolved and
`AlertFiring` otherwise. -/
def Alert.Status (a : Alert) (now : Time) : AlertStatus :=
  if a.Resolved now then
    AlertResolved
  else
    AlertFiring

/-- Go `s[:n]` on a string: the first `n` positions, or a panic (`none`) when
the string is shorter. Positions are characters here, which are the bytes of
Go for the ASCII text this is applied to. -/
def slicePrefix (s : String) (n : Nat) : Option String :=
  if n ≤ s.length then some (String.mk (s.data.take n)) else none

/-- String renders `Name()[fingerprint prefix]` followed by `[resolved]` or
`[active]`: `fmt.Sprintf("%s[%s]", a.Name(), a.Fingerprint().String()[:7])`
and the tag appended to it. -/
def Alert.String (fp : LabelSet → Model.Fingerprint) (a : Alert) (now : Time) :
    Option String :=
  match slicePrefix (Fingerprint.String (a.Fingerprint fp)) 7 with
  | none => none
  | some p =>
    let s := a.Name ++ "[" ++ p ++ "]"
    if a.Resolved now then
      some (s ++ "[resolved]")
    else
      some (s ++ "[active]")

/-! ## Alerts -/

/-- Alerts is a list of alerts that can be sorted. -/
abbrev Alerts := List Alert

/-- Go `as[i]` for an `int` index: a panic (`none`) when `i` is negative or
not below the length. -/
def Alerts.index (as : Alerts) (i : Int) : Option Alert :=
  if i < 0 then none else as.get? i.toNat

/-- Len: `len(as)`. -/
def Alerts.Len (as : Alerts) : Int := as.length

/-- Less: true when `as[i]` starts before `as[j]`; otherwise true when
`as[i]` ends before `as[j]`; otherwise the comparison of the fingerprints. -/
def Alerts.Less (fp : LabelSet → Fingerprint) (as : Alerts) (i j : Int) : Option Bool :=
  match as.index i, as.index j with
  | some ai, some aj =>
    if ai.StartsAt.Before aj.StartsAt then
      some true
    else if ai.EndsAt.Before aj.EndsAt then
      some true
    else
      some (decide (ai.Fingerprint fp < aj.Fingerprint fp))
  | _, _ => none

/-- The three-level lexicographic comparison in the words of the
specification: earlier start; or same start and earlier end; or same start,
same end and smaller fingerprint. -/
def lexLessSpec (fp : LabelSet → Fingerprint) (a b : Alert) : Bool :=
  a.StartsAt.Before b.StartsAt
    || (a.StartsAt.Equal b.StartsAt && a.EndsAt.Before b.EndsAt)
    || (a.StartsAt.Equal b.StartsAt && a.EndsAt.Equal b.EndsAt
          && decide (a.Fingerprint fp < b.Fingerprint fp))

/-- Swap: `as[i], as[j] = as[j], as[i]`. Both elements are read first (a panic
when an index is out of range), then `as[i]` and `as[j]` are assigned in this
order. -/
def Alerts.Swap (as : Alerts) (i j : Int) : Option Alerts :=
  match as.index i, as.index j with
  | some ai, some aj => some ((as.set i.toNat aj).set j.toNat ai)
  | _, _ => none

/-- Modelled from the spec: the sort is not part of `alert.go`. The inner loop
of an insertion sort over `Less` and `Swap`,
`for j := i; j > 0 && Less(j, j-1); j-- { Swap(j, j-1) }`,
started at position `j`. -/
def insertDown (fp : LabelSet → Fingerprint) : Nat → Alerts → Option Alerts
  | 0, as => some as
  | j + 1, as =>
    match as.Less fp (Int.ofNat (j + 1)) (Int.ofNat j) with
    | none => none
    | some false => some as
    | some true =>
      match as.Swap (Int.ofNat (j + 1)) (Int.ofNat j) with
      | none => none
      | some swapped => insertDown fp j swapped

/-- Modelled from the spec: the sort is not part of `alert.go`. The outer loop
of the insertion sort, `for i := ...; i < Len(); i++`, with `k` positions left
to insert and `i` the next one. -/
def insertionSortFrom (fp : LabelSet → Fingerprint) : Nat → Nat → Alerts → Option Alerts
  | 0, _, as => some as
  | k + 1, i, as =>
    match insertDown fp i as with
    | none => none
    | some inserted => insertionSortFrom fp k (i + 1) inserted

/-- Modelled from the spec: the sort is not part of `alert.go`. Insertion sort
driven by `Len`, `Less` and `Swap`: the positions `1` to `Len() - 1` are
inserted in turn into the sorted part in front of them. -/
def Alerts.insertionSort (fp : LabelSet → Fingerprint) (as : Alerts) : Option Alerts :=
  insertionSortFrom fp (as.Len.toNat - 1) 1 as

/-! ## Test data -/

/-- A label set holding only the `alertname` label. -/
def namedLabels (name : String) : LabelSet :=
  fun k => if k = AlertNameLabel then some name else none

/-- An alert named `HighCPU` with the given time range. -/
def sampleAlert (startSec endSec : Int) : Alert :=
  ⟨namedLabels "HighCPU", LabelSet.empty, ⟨startSec, 0⟩, ⟨endSec, 0⟩⟩

/-- A fingerprint function for examples: every label set hashes to
`0xabcdef0123456789`. -/
def constFingerprint : LabelSet → Fingerprint := fun _ => 0xabcdef0123456789

/-- A fingerprint function for examples that tells names of different length
apart: the length of the alert name. -/
def lengthFingerprint : LabelSet → Fingerprint := fun ls => (ls.get AlertNameLabel).length

/-- An alert with the given name and time range. -/
def namedAlert (name : String) (startSec endSec : Int) : Alert :=
  ⟨namedLabels name, LabelSet.empty, ⟨startSec, 0⟩, ⟨endSec, 0⟩⟩

/-! ## Facts about the time order -/

theorem Time.after_eq_before_swap (t u : Time) : t.After u = u.Before t := by
  simp only [Time.After, Time.Before, gt_iff_lt]
  by_cases h : u.sec = t.sec
  · simp [h]
  · have h2 : ¬ t.sec = u.sec := fun e => h e.symm
    simp [h, h2]

theorem Time.before_irrefl (t : Time) : t.Before t = false := by
  simp [Time.Before]

theorem Time.equal_iff (t u : Time) : t.Equal u = true ↔ t = u := by
  cases t; cases u
  simp [Time.Equal]

theorem Time.not_after_iff (t u : Time) :
    t.After u = false ↔ (t.Before u = true ∨ t.Equal u = true) := by
  simp only [Time.After, Time.Before, Time.Equal, Bool.or_eq_false_iff, Bool.and_eq_false_iff,
    Bool.or_eq_true, Bool.and_eq_true, decide_eq_true_eq, decide_eq_false_iff_not]
  omega

theorem Time.isZero_iff (t : Time) : t.IsZero = true ↔ t = Time.zero := by
  cases t
  simp [Time.IsZero, Time.zero]

/-! ## Resolved and Status -/

/-- C1: `Resolved` at `now` is true exactly when `EndsAt` is not the zero time
and is not strictly after `now`, that is when `EndsAt` is before `now` or is
`now` itself; so for a non-zero `EndsAt` it is false at every `now` strictly
before `EndsAt` and true at `now = EndsAt` and at every later `now`. -/
theorem resolved_iff_ended (a : Alert) (now : Time) :
    (a.Resolved now = true ↔ (a.EndsAt.IsZero = false ∧ a.EndsAt.After now = false))
    ∧ (a.Resolved now = true ↔
        (a.EndsAt.IsZero = false ∧ (a.EndsAt.Before now = true ∨ a.EndsAt.Equal now = true)))
    ∧ (a.EndsAt.IsZero = false →
        (now.Before a.EndsAt = true → a.Resolved now = false)
        ∧ (now = a.EndsAt → a.Resolved now = true)
        ∧ (a.EndsAt.Before now = true → a.Resolved now = true)) := by
  have h1 : a.Resolved now = true ↔ (a.EndsAt.IsZero = false ∧ a.EndsAt.After now = false) := by
    unfold Alert.Resolved
    cases hz : a.EndsAt.IsZero <;> simp
  have h2 : a.Resolved now = true ↔
      (a.EndsAt.IsZero = false ∧ (a.EndsAt.Before now = true ∨ a.EndsAt.Equal now = true)) := by
    rw [h1, Time.not_after_iff]
  refine ⟨h1, h2, fun hz => ⟨fun hb => ?_, fun he => ?_, fun hb => ?_⟩⟩
  · cases hr : a.Resolved now
    · rfl
    · have ha := (h1.mp hr).2
      rw [Time.after_eq_before_swap] at ha
      rw [ha] at hb
      exact absurd hb (by decide)
  · exact h2.mpr ⟨hz, Or.inr ((Time.equal_iff _ _).mpr he.symm)⟩
  · exact h2.mpr ⟨hz, Or.inl hb⟩

/-- Witness of C1 at `EndsAt` = second 100: not resolved at second 99,
resolved at second 100 and at second 101. -/
theorem resolved_iff_ended_witness :
    (sampleAlert 0 100).Resolved ⟨99, 0⟩ = false
    ∧ (sampleAlert 0 100).Resolved ⟨100, 0⟩ = true
    ∧ (sampleAlert 0 100).Resolved ⟨101, 0⟩ = true :=
  ⟨((resolved_iff_ended (sampleAlert 0 100) ⟨99, 0⟩).2.2 (by decide)).1 (by decide),
   ((resolved_iff_ended (sampleAlert 0 100) ⟨100, 0⟩).2.2 (by decide)).2.1 rfl,
   ((resolved_iff_ended (sampleAlert 0 100) ⟨101, 0⟩).2.2 (by decide)).2.2 (by decide)⟩

/-- C5: `Status` at `now` is `"resolved"` exactly when `Resolved` at `now` is
true and `"firing"` exactly when it is false; it has no third value. With
`StartsAt = T0` and a non-zero `EndsAt = T0 + 1h` it is `"firing"` at
`T0 + 30m` and `"resolved"` at `T0 + 2h`. -/
theorem status_projects_resolved (a : Alert) (now : Time) :
    (a.Status now = "resolved" ↔ a.Resolved now = true)
    ∧ (a.Status now = "firing" ↔ a.Resolved now = false)
    ∧ (a.Status now = "resolved" ∨ a.Status now = "firing")
    ∧ (∀ (T0 : Time) (labels annotations : LabelSet),
        (T0.addSeconds 3600).IsZero = false →
        Alert.Status ⟨labels, annotations, T0, T0.addSeconds 3600⟩ (T0.addSeconds 1800)
            = "firing"
          ∧ Alert.Status ⟨labels, annotations, T0, T0.addSeconds 3600⟩ (T0.addSeconds 7200)
            = "resolved") := by
  have hne : ("resolved" : String) ≠ "firing" := by decide
  have hne2 : ("firing" : String) ≠ "resolved" := by decide
  refine ⟨?_, ?_, ?_, ?_⟩
  · unfold Alert.Status AlertResolved AlertFiring
    cases a.Resolved now <;> simp [hne2]
  · unfold Alert.Status AlertResolved AlertFiring
    cases a.Resolved now <;> simp [hne]
  · unfold Alert.Status AlertResolved AlertFiring
    cases a.Resolved now <;> simp
  · intro T0 labels annotations hz
    have hafter : (T0.addSeconds 3600).After (T0.addSeconds 1800) = true := by
      simp [Time.After, Time.addSeconds]
    have hnot : (T0.addSeconds 3600).After (T0.addSeconds 7200) = false := by
      simp [Time.After, Time.addSeconds]
    constructor
    · simp [Alert.Status, Alert.Resolved, hz, hafter, AlertFiring]
    · simp [Alert.Status, Alert.Resolved, hz, hnot, AlertResolved]

/-- Witness of C5 at `T0` = second 1000. -/
theorem status_projects_resolved_witness :
    (sampleAlert 1000 4600).Status ⟨2800, 0⟩ = "firing"
    ∧ (sampleAlert 1000 4600).Status ⟨8200, 0⟩ = "resolved" :=
  (status_projects_resolved (sampleAlert 1000 4600) ⟨0, 0⟩).2.2.2 ⟨1000, 0⟩
    (namedLabels "HighCPU") LabelSet.empty (by decide)

/-- C6: an alert whose `EndsAt` is the zero time is not resolved and has
status `"firing"`, at every current time and whatever its other fields. -/
theorem zero_endsAt_is_firing (a : Alert) (now : Time) (h : a.EndsAt.IsZero = true) :
    a.Resolved now = false ∧ a.Status now = "firing" := by
  have hr : a.Resolved now = false := by simp [Alert.Resolved, h]
  exact ⟨hr, by simp [Alert.Status, hr, AlertFiring]⟩

/-- Witness of C6: an alert that started at second 5 and has no end, read at
second 10 ^ 12. -/
theorem zero_endsAt_is_firing_witness :
    (sampleAlert 5 0).EndsAt.IsZero = true
    ∧ (sampleAlert 5 0).Resolved ⟨10 ^ 12, 0⟩ = false
    ∧ (sampleAlert 5 0).Status ⟨10 ^ 12, 0⟩ = "firing" :=
  ⟨by decide, zero_endsAt_is_firing (sampleAlert 5 0) ⟨10 ^ 12, 0⟩ (by decide)⟩

/-! ## Identity -/

/-- C7: the fingerprint of an alert is the fingerprint of its label set: two
alerts with equal `Labels` have equal fingerprints, and replacing
`Annotations`, `StartsAt` and `EndsAt` leaves the fingerprint unchanged. -/
theorem fingerprint_of_labels_only (fp : LabelSet → Fingerprint) (a : Alert) :
    a.Fingerprint fp = fp a.Labels
    ∧ (∀ b : Alert, b.Labels = a.Labels → b.Fingerprint fp = a.Fingerprint fp)
    ∧ (∀ (annotations : LabelSet) (startsAt endsAt : Time),
        Alert.Fingerprint fp ⟨a.Labels, annotations, startsAt, endsAt⟩ = a.Fingerprint fp) := by
  refine ⟨rfl, ?_, ?_⟩
  · intro b hb
    simp [Alert.Fingerprint, hb]
  · intro annotations startsAt endsAt
    rfl

/-- Witness of C7: two alerts named `HighCPU` with different time ranges. -/
theorem fingerprint_of_labels_only_witness :
    (sampleAlert 7 9).Fingerprint constFingerprint
      = (sampleAlert 1 0).Fingerprint constFingerprint :=
  (fingerprint_of_labels_only constFingerprint (sampleAlert 1 0)).2.1 (sampleAlert 7 9) rfl

/-- C8: `Name` is the value stored under the `alertname` label when the label
is present and the empty string when it is absent, in particular for the
empty label set. -/
theorem name_is_alertname_label (a : Alert) :
    (∀ v : LabelValue, a.Labels "alertname" = some v → a.Name = v)
    ∧ (a.Labels "alertname" = none → a.Name = "")
    ∧ (∀ (annotations : LabelSet) (startsAt endsAt : Time),
        Alert.Name ⟨LabelSet.empty, annotations, startsAt, endsAt⟩ = "") := by
  refine ⟨?_, ?_, ?_⟩
  · intro v hv
    simp [Alert.Name, LabelSet.get, AlertNameLabel, hv]
  · intro hv
    simp [Alert.Name, LabelSet.get, AlertNameLabel, hv]
  · intro annotations startsAt endsAt
    rfl

/-- Witness of C8: the alert labelled `alertname = HighCPU` is named
`HighCPU`. -/
theorem name_is_alertname_label_witness : (sampleAlert 0 0).Name = "HighCPU" :=
  (name_is_alertname_label (sampleAlert 0 0)).1 "HighCPU" (by decide)

/-! ## Rendering -/

theorem Fingerprint.string_length_ge (f : Fingerprint) : 16 ≤ (Fingerprint.String f).length := by
  simp only [Fingerprint.String, String.length, List.leftpad_length]
  exact le_max_left _ _

theorem Fingerprint.string_length_eq (f : Fingerprint) (h : f < 2 ^ 64) :
    (Fingerprint.String f).length = 16 := by
  have hd : (Nat.toDigits 16 f).length ≤ 16 :=
    Nat.toDigitsCore_length 16 (by decide) (f + 1) f 16 (by simpa using h) (by decide)
  simp only [Fingerprint.String, String.length, List.leftpad_length]
  exact max_eq_left hd

theorem slicePrefix_fingerprint (f : Fingerprint) :
    slicePrefix (Fingerprint.String f) 7 = some (String.mk ((Fingerprint.String f).data.take 7)) := by
  have h := Fingerprint.string_length_ge f
  have h7 : 7 ≤ (Fingerprint.String f).length := by omega
  simp [slicePrefix, h7]

/-- C9: `String` returns `Name()`, then `[`, the first 7 characters of the
textual form of the fingerprint, `]`, and then `[resolved]` when the alert is
resolved at `now` and `[active]` otherwise. The textual form has at least 16
characters (exactly 16 for a 64-bit value), so the prefix has 7 characters and
the slice does not fail. The alert named `HighCPU` with fingerprint
`abcdef0123456789` and no end renders as `HighCPU[abcdef0][active]`. -/
theorem string_rendering (fp : LabelSet → Fingerprint) (a : Alert) (now : Time) :
    a.String fp now = some (a.Name ++ "["
        ++ String.mk ((Fingerprint.String (a.Fingerprint fp)).data.take 7) ++ "]"
        ++ (if a.Resolved now then "[resolved]" else "[active]"))
    ∧ (String.mk ((Fingerprint.String (a.Fingerprint fp)).data.take 7)).length = 7
    ∧ 16 ≤ (Fingerprint.String (a.Fingerprint fp)).length
    ∧ (a.Fingerprint fp < 2 ^ 64 → (Fingerprint.String (a.Fingerprint fp)).length = 16)
    ∧ Alert.String constFingerprint (sampleAlert 10 0) ⟨20, 0⟩
        = some "HighCPU[abcdef0][active]" := by
  have hge := Fingerprint.string_length_ge (a.Fingerprint fp)
  refine ⟨?_, ?_, hge, Fingerprint.string_length_eq _, by decide⟩
  · unfold Alert.String
    rw [slicePrefix_fingerprint]
    cases a.Resolved now <;> simp
  · have hlen : (Fingerprint.String (a.Fingerprint fp)).data.length
        = (Fingerprint.String (a.Fingerprint fp)).length := rfl
    simp only [String.length, List.length_take]
    omega

/-- Witness of C9: the fingerprint `0xabcdef0123456789` is a 64-bit value and
its textual form has 16 characters. -/
theorem string_rendering_witness :
    (sampleAlert 10 0).Fingerprint constFingerprint < 2 ^ 64
    ∧ (Fingerprint.String ((sampleAlert 10 0).Fingerprint constFingerprint)).length = 16 :=
  ⟨by decide,
   (string_rendering constFingerprint (sampleAlert 10 0) ⟨20, 0⟩).2.2.2.1 (by decide)⟩

/-! ## The comparator -/

theorem Alerts.index_of_inRange (as : Alerts) (i : Int) (h0 : 0 ≤ i) (hlt : i < as.Len) :
    ∃ a, as.index i = some a := by
  have hn : i.toNat < as.length := by
    unfold Alerts.Len at hlt
    omega
  refine ⟨as.get ⟨i.toNat, hn⟩, ?_⟩
  have hneg : ¬ i < 0 := by omega
  simp [Alerts.index, hneg, List.get?_eq_get hn]

theorem Alerts.less_of_index (fp : LabelSet → Fingerprint) (as : Alerts) (i j : Int)
    (a b : Alert) (hi : as.index i = some a) (hj : as.index j = some b) :
    as.Less fp i j = some (a.StartsAt.Before b.StartsAt || a.EndsAt.Before b.EndsAt
      || decide (a.Fingerprint fp < b.Fingerprint fp)) := by
  unfold Alerts.Less
  rw [hi, hj]
  cases h1 : a.StartsAt.Before b.StartsAt <;> cases h2 : a.EndsAt.Before b.EndsAt <;>
    simp [h1, h2]

/-- C2: the code does not compute the three-level lexicographic comparison.
For `a` running from second 2 to second 3 and `b` running from second 1 to
second 4, `a` starts after `b`, the lexicographic comparison of `a` with `b`
is false, and `Less` returns true because `a` ends before `b`. -/
theorem less_not_lexicographic :
    ∀ fp : LabelSet → Fingerprint,
      (sampleAlert 2 3).StartsAt.After (sampleAlert 1 4).StartsAt = true
      ∧ lexLessSpec fp (sampleAlert 2 3) (sampleAlert 1 4) = false
      ∧ Alerts.Less fp [sampleAlert 2 3, sampleAlert 1 4] 0 1 = some true := by
  intro fp
  exact ⟨rfl, rfl, rfl⟩

/-- C3: the order of the code is not transitive. With `a` from second 1 to 5,
`b` from second 2 to 3 and `c` from second 0 to 4, all with the same labels,
`Less` holds from `a` to `b` and from `b` to `c`, and not from `a` to `c`. -/
theorem less_not_transitive :
    ∀ fp : LabelSet → Fingerprint,
      Alerts.Less fp [sampleAlert 1 5, sampleAlert 2 3, sampleAlert 0 4] 0 1 = some true
      ∧ Alerts.Less fp [sampleAlert 1 5, sampleAlert 2 3, sampleAlert 0 4] 1 2 = some true
      ∧ Alerts.Less fp [sampleAlert 1 5, sampleAlert 2 3, sampleAlert 0 4] 0 2 = some false := by
  intro fp
  refine ⟨rfl, rfl, ?_⟩
  simp [Alerts.Less, Alerts.index, sampleAlert, Time.Before, Alert.Fingerprint]

/-- C4: `Less` is irreflexive: for every list of alerts and every index `i` in
range, `Less(i, i)` is false. -/
theorem less_irreflexive (fp : LabelSet → Fingerprint) (as : Alerts) (i : Int)
    (h0 : 0 ≤ i) (hlt : i < as.Len) : as.Less fp i i = some false := by
  obtain ⟨a, ha⟩ := Alerts.index_of_inRange as i h0 hlt
  rw [Alerts.less_of_index fp as i i a a ha ha]
  simp [Time.before_irrefl]

/-- Witness of C4: the second of two alerts, compared with itself. -/
theorem less_irreflexive_witness :
    Alerts.Less constFingerprint [sampleAlert 1 5, sampleAlert 2 3] 1 1 = some false :=
  less_irreflexive constFingerprint [sampleAlert 1 5, sampleAlert 2 3] 1 (by decide) (by decide)

/-- C10: for two alerts of a list whose `StartsAt` are the same instant and
whose `EndsAt` are the same instant, `Less(a, b)` holds exactly when the
fingerprint of `a` is smaller than the fingerprint of `b`; when the
fingerprints differ, exactly one of `Less(a, b)` and `Less(b, a)` holds. -/
theorem less_at_equal_times (fp : LabelSet → Fingerprint) (as : Alerts) (i j : Int)
    (a b : Alert) (hi : as.index i = some a) (hj : as.index j = some b)
    (hs : a.StartsAt.Equal b.StartsAt = true) (he : a.EndsAt.Equal b.EndsAt = true) :
    (as.Less fp i j = some true ↔ a.Fingerprint fp < b.Fingerprint fp)
    ∧ as.Less fp i j = some (decide (a.Fingerprint fp < b.Fingerprint fp))
    ∧ as.Less fp j i = some (decide (b.Fingerprint fp < a.Fingerprint fp))
    ∧ (a.Fingerprint fp ≠ b.Fingerprint fp →
        (as.Less fp i j = some true ∧ as.Less fp j i = some false)
        ∨ (as.Less fp i j = some false ∧ as.Less fp j i = some true)) := by
  have hs2 := (Time.equal_iff _ _).mp hs
  have he2 := (Time.equal_iff _ _).mp he
  have hij : as.Less fp i j = some (decide (a.Fingerprint fp < b.Fingerprint fp)) := by
    rw [Alerts.less_of_index fp as i j a b hi hj, hs2, he2]
    simp [Time.before_irrefl]
  have hji : as.Less fp j i = some (decide (b.Fingerprint fp < a.Fingerprint fp)) := by
    rw [Alerts.less_of_index fp as j i b a hj hi, hs2, he2]
    simp [Time.before_irrefl]
  refine ⟨?_, hij, hji, ?_⟩
  · rw [hij]
    simp
  · intro hne
    rw [hij, hji]
    rcases Nat.lt_or_gt_of_ne hne with h | h
    · left
      have h2 : ¬ b.Fingerprint fp < a.Fingerprint fp := Nat.lt_asymm h
      simp [h, h2]
    · right
      have h2 : ¬ a.Fingerprint fp < b.Fingerprint fp := Nat.lt_asymm h
      simp [h, h2]

/-- Witness of C10: the alerts named `A` and `BB` over the same time range,
with the length of the name as fingerprint. -/
theorem less_at_equal_times_witness :
    (namedAlert "A" 3 9).StartsAt.Equal (namedAlert "BB" 3 9).StartsAt = true
    ∧ (namedAlert "A" 3 9).EndsAt.Equal (namedAlert "BB" 3 9).EndsAt = true
    ∧ Alerts.Less lengthFingerprint [namedAlert "A" 3 9, namedAlert "BB" 3 9] 0 1 = some true
    ∧ Alerts.Less lengthFingerprint [namedAlert "A" 3 9, namedAlert "BB" 3 9] 1 0 = some false :=
  have h := less_at_equal_times lengthFingerprint [namedAlert "A" 3 9, namedAlert "BB" 3 9] 0 1
    (namedAlert "A" 3 9) (namedAlert "BB" 3 9) rfl rfl (by decide) (by decide)
  ⟨by decide, by decide, h.2.1, h.2.2.1⟩

/-! ## More facts about the time order -/

theorem Time.eq_of_not_before (t u : Time) (h1 : t.Before u = false)
    (h2 : u.Before t = false) : t = u := by
  cases t
  cases u
  simp only [Time.Before, Bool.or_eq_false_iff, Bool.and_eq_false_iff,
    decide_eq_false_iff_not] at h1 h2
  simp only [Time.mk.injEq]
  omega

theorem Time.not_after_mono (e now1 now2 : Time)
    (hle : now1.Before now2 = true ∨ now1.Equal now2 = true)
    (h : e.After now1 = false) : e.After now2 = false := by
  simp only [Time.After, Time.Before, Time.Equal, Bool.or_eq_false_iff, Bool.and_eq_false_iff,
    Bool.or_eq_true, Bool.and_eq_true, decide_eq_true_eq, decide_eq_false_iff_not] at *
  omega

/-! ## The comparator, continued -/

/-- C11: for two alerts of a list, when the first starts strictly before the
second, `Less` is true, whatever the `EndsAt` and the fingerprints are. -/
theorem less_of_earlier_start (fp : LabelSet → Fingerprint) (as : Alerts) (i j : Int)
    (a b : Alert) (hi : as.index i = some a) (hj : as.index j = some b)
    (h : a.StartsAt.Before b.StartsAt = true) : as.Less fp i j = some true := by
  rw [Alerts.less_of_index fp as i j a b hi hj, h]
  simp

/-- Witness of C11: the alert that starts at second 1 and ends last, against
the alert that starts at second 2. -/
theorem less_of_earlier_start_witness :
    (sampleAlert 1 9).StartsAt.Before (sampleAlert 2 3).StartsAt = true
    ∧ Alerts.Less constFingerprint [sampleAlert 1 9, sampleAlert 2 3] 0 1 = some true :=
  ⟨by decide,
   less_of_earlier_start constFingerprint [sampleAlert 1 9, sampleAlert 2 3] 0 1
     (sampleAlert 1 9) (sampleAlert 2 3) rfl rfl (by decide)⟩

/-- C12: the order is total up to indistinguishability: when neither
`Less(a, b)` nor `Less(b, a)` holds for two alerts of a list, they have the
same `StartsAt` instant, the same `EndsAt` instant and the same fingerprint. -/
theorem less_total_up_to_indistinguishable (fp : LabelSet → Fingerprint) (as : Alerts)
    (i j : Int) (a b : Alert) (hi : as.index i = some a) (hj : as.index j = some b)
    (hab : as.Less fp i j ≠ some true) (hba : as.Less fp j i ≠ some true) :
    a.StartsAt.Equal b.StartsAt = true ∧ a.EndsAt.Equal b.EndsAt = true
    ∧ a.Fingerprint fp = b.Fingerprint fp := by
  rw [Alerts.less_of_index fp as i j a b hi hj] at hab
  rw [Alerts.less_of_index fp as j i b a hj hi] at hba
  simp only [ne_eq, Option.some.injEq, Bool.or_eq_true, decide_eq_true_eq, not_or,
    Bool.not_eq_true, not_lt] at hab hba
  obtain ⟨⟨hs1, he1⟩, hf1⟩ := hab
  obtain ⟨⟨hs2, he2⟩, hf2⟩ := hba
  refine ⟨(Time.equal_iff _ _).mpr (Time.eq_of_not_before _ _ hs1 hs2),
    (Time.equal_iff _ _).mpr (Time.eq_of_not_before _ _ he1 he2), Nat.le_antisymm hf2 hf1⟩

/-- Witness of C12: the alerts named `A` and `B` over the same time range,
with the length of the name as fingerprint, are ordered in neither direction. -/
theorem less_total_up_to_indistinguishable_witness :
    Alerts.Less lengthFingerprint [namedAlert "A" 3 9, namedAlert "B" 3 9] 0 1 ≠ some true
    ∧ Alerts.Less lengthFingerprint [namedAlert "A" 3 9, namedAlert "B" 3 9] 1 0 ≠ some true
    ∧ (namedAlert "A" 3 9).StartsAt.Equal (namedAlert "B" 3 9).StartsAt = true
    ∧ (namedAlert "A" 3 9).EndsAt.Equal (namedAlert "B" 3 9).EndsAt = true
    ∧ (namedAlert "A" 3 9).Fingerprint lengthFingerprint
        = (namedAlert "B" 3 9).Fingerprint lengthFingerprint :=
  ⟨by decide, by decide,
   less_total_up_to_indistinguishable lengthFingerprint
     [namedAlert "A" 3 9, namedAlert "B" 3 9] 0 1 (namedAlert "A" 3 9) (namedAlert "B" 3 9)
     rfl rfl (by decide) (by decide)⟩

theorem Alerts.index_map (g : Alert → Alert) (as : Alerts) (k : Int) :
    Alerts.index (as.map g) k = (as.index k).map g := by
  unfold Alerts.index
  split
  · rfl
  · simp [List.get?_eq_getElem?]

/-- C13: `Annotations` do not take part in the order: replacing the
annotations of the two alerts compared, or of every alert of a list, by any
other label sets leaves the result of `Less` unchanged. -/
theorem less_ignores_annotations (fp : LabelSet → Fingerprint) (a b : Alert)
    (annotationsA annotationsB : LabelSet) :
    Alerts.Less fp [⟨a.Labels, annotationsA, a.StartsAt, a.EndsAt⟩,
        ⟨b.Labels, annotationsB, b.StartsAt, b.EndsAt⟩] 0 1 = Alerts.Less fp [a, b] 0 1
    ∧ (∀ (as : Alerts) (f : Alert → LabelSet) (i j : Int),
        Alerts.Less fp (as.map (fun x => ⟨x.Labels, f x, x.StartsAt, x.EndsAt⟩)) i j
          = Alerts.Less fp as i j) := by
  refine ⟨rfl, ?_⟩
  intro as f i j
  unfold Alerts.Less
  rw [Alerts.index_map, Alerts.index_map]
  cases as.index i <;> cases as.index j <;> simp [Alert.Fingerprint]

/-- C14, as stated, fails on the code. An alert with zero `StartsAt` is not
`Less` than an alert that starts one second before the zero time (a non-zero
time); and an alert that starts at second 5, a non-zero time, is `Less` than
an alert with zero `StartsAt` that ends later. -/
theorem zero_start_not_first :
    (sampleAlert 0 10).StartsAt.IsZero = true
    ∧ (sampleAlert (-1) 10).StartsAt.IsZero = false
    ∧ Alerts.Less constFingerprint [sampleAlert 0 10, sampleAlert (-1) 10] 0 1 = some false
    ∧ (sampleAlert 5 7).StartsAt.IsZero = false
    ∧ Alerts.Less constFingerprint [sampleAlert 0 10, sampleAlert 5 7] 1 0 = some true := by
  decide

/-- C14, amended: for two alerts of a list where the first has the zero time
as `StartsAt` and the second has a non-zero `StartsAt` that is not before the
zero time, `Less` from the first to the second is true. -/
theorem zero_start_before_later_start (fp : LabelSet → Fingerprint) (as : Alerts) (i j : Int)
    (a b : Alert) (hi : as.index i = some a) (hj : as.index j = some b)
    (hz : a.StartsAt.IsZero = true) (hnz : b.StartsAt.IsZero = false)
    (hnb : b.StartsAt.Before Time.zero = false) : as.Less fp i j = some true := by
  have ha : a.StartsAt = Time.zero := (Time.isZero_iff _).mp hz
  have hb : a.StartsAt.Before b.StartsAt = true := by
    cases hbef : a.StartsAt.Before b.StartsAt
    · rw [ha] at hbef
      have heq := Time.eq_of_not_before _ _ hbef hnb
      have hbz : b.StartsAt.IsZero = true := (Time.isZero_iff _).mpr heq.symm
      rw [hbz] at hnz
      exact absurd hnz (by decide)
    · rfl
  rw [Alerts.less_of_index fp as i j a b hi hj, hb]
  simp

/-- Witness of amended C14: an alert without start against an alert that
starts at second 5 and ends earlier. -/
theorem zero_start_before_later_start_witness :
    (sampleAlert 0 10).StartsAt.IsZero = true
    ∧ (sampleAlert 5 7).StartsAt.IsZero = false
    ∧ (sampleAlert 5 7).StartsAt.Before Time.zero = false
    ∧ Alerts.Less constFingerprint [sampleAlert 0 10, sampleAlert 5 7] 0 1 = some true :=
  ⟨by decide, by decide, by decide,
   zero_start_before_later_start constFingerprint [sampleAlert 0 10, sampleAlert 5 7] 0 1
     (sampleAlert 0 10) (sampleAlert 5 7) rfl rfl (by decide) (by decide) (by decide)⟩

/-- C15: sorting with the code's `Less` is not idempotent. Insertion sort turns
the list of `b` (second 2 to 3) and `a` (second 1 to 5) into `a, b`, and
sorting `a, b` again turns it into `b, a`, a different list. -/
theorem insertionSort_not_idempotent :
    ∀ fp : LabelSet → Fingerprint,
      Alerts.insertionSort fp [sampleAlert 2 3, sampleAlert 1 5]
        = some [sampleAlert 1 5, sampleAlert 2 3]
      ∧ Alerts.insertionSort fp [sampleAlert 1 5, sampleAlert 2 3]
        = some [sampleAlert 2 3, sampleAlert 1 5]
      ∧ [sampleAlert 2 3, sampleAlert 1 5] ≠ [sampleAlert 1 5, sampleAlert 2 3] := by
  intro fp
  refine ⟨rfl, rfl, ?_⟩
  intro h
  have hs : (sampleAlert 2 3).StartsAt = (sampleAlert 1 5).StartsAt :=
    congrArg Alert.StartsAt (List.head_eq_of_cons_eq h)
  exact absurd hs (by decide)

/-! ## Monotonicity of resolution -/

/-- C16: resolution is monotone in the clock: when `now1` is before or equal to
`now2` and the alert is resolved at `now1`, it is resolved at `now2`. -/
theorem resolved_monotone (a : Alert) (now1 now2 : Time)
    (hle : now1.Before now2 = true ∨ now1.Equal now2 = true)
    (h : a.Resolved now1 = true) : a.Resolved now2 = true := by
  unfold Alert.Resolved at h ⊢
  cases hz : a.EndsAt.IsZero
  · simp only [hz, Bool.false_eq_true, if_false, Bool.not_eq_true'] at h ⊢
    exact Time.not_after_mono a.EndsAt now1 now2 hle h
  · simp [hz] at h

/-- Witness of C16: an alert that ends at second 100 is not resolved at second
99, is resolved at second 100 and so at second 101. -/
theorem resolved_monotone_witness :
    (sampleAlert 0 100).Resolved ⟨99, 0⟩ = false
    ∧ (sampleAlert 0 100).Resolved ⟨100, 0⟩ = true
    ∧ (sampleAlert 0 100).Resolved ⟨101, 0⟩ = true :=
  ⟨by decide, by decide,
   resolved_monotone (sampleAlert 0 100) ⟨100, 0⟩ ⟨101, 0⟩ (Or.inl (by decide)) (by decide)⟩

/-! ## Len and Swap -/

theorem getElem?_set_set (l : List Alert) (n m : Nat) (a b : Alert)
    (hn : l[n]? = some a) (hm : l[m]? = some b) (k : Nat) :
    ((l.set n b).set m a)[k]? = if k = m then some a else if k = n then some b else l[k]? := by
  have hnl : n < l.length := by
    by_contra hc
    rw [List.getElem?_eq_none (by omega)] at hn
    exact absurd hn (by simp)
  have hml : m < l.length := by
    by_contra hc
    rw [List.getElem?_eq_none (by omega)] at hm
    exact absurd hm (by simp)
  rw [List.getElem?_set, List.getElem?_set]
  by_cases hkm : k = m
  · subst hkm
    simp [hml]
  · by_cases hkn : k = n
    · subst hkn
      have hmk : ¬ m = k := fun e => hkm e.symm
      simp [hmk, hnl, hkm]
    · have hmk : ¬ m = k := fun e => hkm e.symm
      have hnk : ¬ n = k := fun e => hkn e.symm
      simp [hmk, hnk, hkm, hkn]

theorem set_set_restores (l : List Alert) (n m : Nat) (a b : Alert)
    (hn : l[n]? = some a) (hm : l[m]? = some b) :
    ((((l.set n b).set m a).set n a).set m b) = l := by
  have hn2 : ((l.set n b).set m a)[n]? = some b := by
    rw [getElem?_set_set l n m a b hn hm n]
    by_cases hnm : n = m
    · subst hnm
      rw [hn] at hm
      simp [hm]
    · simp [hnm]
  have hm2 : ((l.set n b).set m a)[m]? = some a := by
    rw [getElem?_set_set l n m a b hn hm m]
    simp
  apply List.ext_getElem?
  intro k
  rw [getElem?_set_set _ n m b a hn2 hm2 k]
  by_cases hkm : k = m
  · subst hkm
    simp [hm]
  · by_cases hkn : k = n
    · subst hkn
      simp [hkm, hn]
    · rw [getElem?_set_set l n m a b hn hm k]
      simp [hkm, hkn]

theorem Alerts.index_eq_getElem? (as : Alerts) (k : Int) (h : 0 ≤ k) :
    as.index k = as[k.toNat]? := by
  have hneg : ¬ k < 0 := by omega
  simp [Alerts.index, hneg, List.get?_eq_getElem?]

theorem Alerts.index_neg (as : Alerts) (k : Int) (h : k < 0) : as.index k = none := by
  simp [Alerts.index, h]

/-- C17: for indices `i` and `j` in range, `Swap(i, j)` yields a list of the
same length whose element at `i` is the old element at `j`, whose element at
`j` is the old element at `i` and whose other positions are unchanged; a second
`Swap(i, j)` restores the original list. -/
theorem swap_exchanges (as : Alerts) (i j : Int)
    (hi0 : 0 ≤ i) (hi : i < as.Len) (hj0 : 0 ≤ j) (hj : j < as.Len) :
    ∃ swapped : Alerts, as.Swap i j = some swapped
      ∧ swapped.Len = as.Len
      ∧ swapped.index i = as.index j
      ∧ swapped.index j = as.index i
      ∧ (∀ k : Int, k ≠ i → k ≠ j → swapped.index k = as.index k)
      ∧ swapped.Swap i j = some as := by
  obtain ⟨a, ha⟩ := Alerts.index_of_inRange as i hi0 hi
  obtain ⟨b, hb⟩ := Alerts.index_of_inRange as j hj0 hj
  have han : as[i.toNat]? = some a := by rw [← Alerts.index_eq_getElem? as i hi0]; exact ha
  have hbn : as[j.toNat]? = some b := by rw [← Alerts.index_eq_getElem? as j hj0]; exact hb
  have hget := getElem?_set_set as i.toNat j.toNat a b han hbn
  have hsi : Alerts.index ((as.set i.toNat b).set j.toNat a) i = some b := by
    rw [Alerts.index_eq_getElem? _ i hi0, hget]
    by_cases hij : i.toNat = j.toNat
    · rw [hij] at han
      rw [han] at hbn
      simp [hij, hbn]
    · simp [hij]
  have hsj : Alerts.index ((as.set i.toNat b).set j.toNat a) j = some a := by
    rw [Alerts.index_eq_getElem? _ j hj0, hget]
    simp
  refine ⟨(as.set i.toNat b).set j.toNat a, ?_, ?_, ?_, ?_, ?_, ?_⟩
  · simp [Alerts.Swap, ha, hb]
  · simp [Alerts.Len]
  · rw [hsi, hb]
  · rw [hsj, ha]
  · intro k hki hkj
    by_cases hk : k < 0
    · rw [Alerts.index_neg _ k hk, Alerts.index_neg _ k hk]
    · have hk0 : 0 ≤ k := by omega
      rw [Alerts.index_eq_getElem? _ k hk0, Alerts.index_eq_getElem? _ k hk0, hget]
      have h1 : ¬ k.toNat = j.toNat := by omega
      have h2 : ¬ k.toNat = i.toNat := by omega
      simp [h1, h2]
  · have hsi2 : ((as.set i.toNat b).set j.toNat a)[i.toNat]? = some b := by
      rw [← Alerts.index_eq_getElem? _ i hi0]; exact hsi
    have hsj2 : ((as.set i.toNat b).set j.toNat a)[j.toNat]? = some a := by
      rw [← Alerts.index_eq_getElem? _ j hj0]; exact hsj
    simp only [Alerts.Swap, hsi, hsj]
    rw [set_set_restores as i.toNat j.toNat a b han hbn]

/-- Witness of C17: the first and the third of three alerts are exchanged. -/
theorem swap_exchanges_witness :
    ∃ swapped : Alerts,
      Alerts.Swap [sampleAlert 1 2, sampleAlert 3 4, sampleAlert 5 6] 0 2 = some swapped
      ∧ swapped.Len = Alerts.Len [sampleAlert 1 2, sampleAlert 3 4, sampleAlert 5 6]
      ∧ swapped.index 0 = Alerts.index [sampleAlert 1 2, sampleAlert 3 4, sampleAlert 5 6] 2
      ∧ swapped.index 2 = Alerts.index [sampleAlert 1 2, sampleAlert 3 4, sampleAlert 5 6] 0
      ∧ (∀ k : Int, k ≠ 0 → k ≠ 2 → swapped.index k
          = Alerts.index [sampleAlert 1 2, sampleAlert 3 4, sampleAlert 5 6] k)
      ∧ swapped.Swap 0 2 = some [sampleAlert 1 2, sampleAlert 3 4, sampleAlert 5 6] :=
  swap_exchanges [sampleAlert 1 2, sampleAlert 3 4, sampleAlert 5 6] 0 2
    (by decide) (by decide) (by decide) (by decide)

end Model
